import Mathlib

/-!
# Conventional-commit CLI: message model, type validator, collectors

A shallow embedding of `cmd/conventional-commit/commit.go` and
`cmd/conventional-commit/main.go`.

Modelling conventions

* A Go `string` is a Lean `String` (a sequence of Unicode code points; Go
  strings that are not valid UTF-8 are outside the model).
* `strings.Builder` is an accumulated `String`; `WriteString` appends.
* `bufio.Reader` over standard input is the list of the lines still to be
  read, each exactly as one `ReadString('\n')` call would return it (the
  delimiter included).  A read at end of input returns the empty string; the
  error value is discarded by every caller in the source.
* A `for` loop that may spin forever carries a `fuel : Nat` bound on its
  iterations and returns `none` when the bound is exhausted.
* `os.Exit` and the terminal output are recorded in the `Outcome` of a run.
-/

namespace ConvCommit

/-! ## Library functions used by the source -/

/-- Go `unicode.IsSpace` (the same set as the space table of package `fmt`):
the Latin-1 spaces and the Unicode `White_Space` property. -/
def isSpace (r : Char) : Bool :=
  let n := r.toNat
  (0x09 ≤ n && n ≤ 0x0d) || n == 0x20 || n == 0x85 || n == 0xa0 || n == 0x1680 ||
  (0x2000 ≤ n && n ≤ 0x200a) || n == 0x2028 || n == 0x2029 || n == 0x202f ||
  n == 0x205f || n == 0x3000

/-- Go `strings.TrimSpace`: the string without its leading and trailing
white space. -/
def TrimSpace (s : String) : String :=
  ⟨((s.data.dropWhile isSpace).reverse.dropWhile isSpace).reverse⟩

/-- Go `strings.Join`: the elements separated by `sep`. -/
def Join : List String → String → String
  | [], _ => ""
  | [a], _ => a
  | a :: b :: rest, sep => a ++ sep ++ Join (b :: rest) sep

/-- Go `strings.Contains`: `substr` occurs in `s` at some position. -/
def Contains (s substr : String) : Bool :=
  s.data.tails.any (fun t => substr.data.isPrefixOf t)

/-- Go `strings.ToLower`, on the ASCII range (the only rune whose lower case
is `y` is `Y`, which is all the source compares against). -/
def ToLower (s : String) : String :=
  ⟨s.data.map Char.toLower⟩

/-- Package `fmt`: `hugeWid`, the bound on the runes one scan may read. -/
def hugeWid : Nat := 1073741824

/-- Package `fmt`, `(*ss).SkipSpace` with `nlIsSpace = false` (the setting
of `Sscanf`): skips white space; `none` is the error "unexpected newline". -/
def SkipSpace : List Char → Option (List Char)
  | [] => some []
  | r :: rest =>
    if r = '\r' ∧ rest.head? = some '\n' then SkipSpace rest
    else if r = '\n' then none
    else if !isSpace r then some (r :: rest)
    else SkipSpace rest

/-- Package `fmt`, `(*ss).accept`: if the next rune is one of `ok`, moves it
to the token buffer.  Returns whether it did, the remaining input and the
buffer. -/
def accept (ok : List Char) (input buf : List Char) : Bool × List Char × List Char :=
  match input with
  | [] => (false, [], buf)
  | r :: rest => if r ∈ ok then (true, rest, buf ++ [r]) else (false, r :: rest, buf)

/-- Package `fmt`, the loop `for s.accept(digits) {}` of `scanNumber`. -/
def acceptAll (ok : List Char) : List Char → List Char → List Char × List Char
  | [], buf => ([], buf)
  | r :: rest, buf => if r ∈ ok then acceptAll ok rest (buf ++ [r]) else (r :: rest, buf)

/-- Package `fmt`: the sign characters. -/
def sign : List Char := ['+', '-']

/-- Package `fmt`, `getBase` for the verb `d`: the decimal digits. -/
def digits : List Char := ['0', '1', '2', '3', '4', '5', '6', '7', '8', '9']

/-- Go `strconv.ParseUint(s, 10, 64)`: `none` is a syntax or range error. -/
def ParseUint (s : List Char) : Option Nat :=
  if s = [] then none
  else if s.all (fun c => '0' ≤ c && c ≤ '9') then
    let n := s.foldl (fun n c => n * 10 + (c.toNat - '0'.toNat)) 0
    if n < 2 ^ 64 then some n else none
  else none

/-- Go `strconv.ParseInt(s, 10, 64)`: `none` is a syntax or range error. -/
def ParseInt (s : List Char) : Option Int :=
  match s with
  | [] => none
  | c :: t =>
    let neg := c = '-'
    let s := if c = '+' ∨ c = '-' then t else c :: t
    match ParseUint s with
    | none => none
    | some un =>
      if !neg && un ≥ 2 ^ 63 then none
      else if neg && un > 2 ^ 63 then none
      else some (if neg then - (un : Int) else (un : Int))

/-- Go `fmt.Sscanf(input, "%d", &index)` reduced to what the source uses:
`some index` when the error is `nil`, `none` otherwise.  The scan skips
leading space, reads an optional sign and a run of decimal digits, and
converts them with `ParseInt`; input left after the number is not an
error.  `int` is taken as 64 bits wide. -/
def Sscanf (input : String) : Option Int :=
  let rs := input.data.take hugeWid
  match SkipSpace rs with
  | none => none
  | some rs =>
    match SkipSpace rs with
    | none => none
    | some rs =>
      if rs = [] then none
      else
        let (_, rs, buf) := accept sign rs []
        if rs = [] then none
        else
          let (ok, rs, buf) := accept digits rs buf
          if !ok then none
          else
            let (_, buf) := acceptAll digits rs buf
            ParseInt buf

/-- The standard input behind `bufio.NewReader(os.Stdin)`: the lines still
to be read. -/
abbrev Reader := List String

/-- Go `reader.ReadString('\n')` with the error dropped: the next line and
the reader after it; the empty string at end of input. -/
def ReadString : Reader → String × Reader
  | [] => ("", [])
  | line :: rest => (line, rest)

/-! ## commit.go -/

/-- Valid commit types according to conventional commits specification. -/
def validTypes : List String :=
  ["feat", "fix", "docs", "style", "refactor",
   "perf", "test", "build", "ci", "chore", "revert"]

/-- CommitMessage represents a conventional commit message. -/
structure CommitMessage where
  /-- Field `Type` of the source (`Type` is reserved in Lean). -/
  Type_ : String
  Scope : String
  Description : String
  Body : String
  Breaking : Bool
  Footer : String
  deriving DecidableEq, Repr

/-- The `range` loop of `isValidType` over the remaining entries. -/
def isValidTypeLoop (t : String) : List String → Bool
  | [] => false
  | validType :: rest => if t = validType then true else isValidTypeLoop t rest

/-- Go `isValidType`: checks if the given type is valid. -/
def isValidType (t : String) : Bool :=
  isValidTypeLoop t validTypes


/-- Go `promptForType`: prompts the user to select a valid commit type.
One unit of fuel per iteration of the `for` loop. -/
def promptForType : Nat → Reader → Option (String × Reader)
  | 0, _ => none
  | fuel + 1, reader =>
    let (input, reader) := ReadString reader
    let input := TrimSpace input
    match Sscanf input with
    | some index =>
      if index ≥ 1 ∧ index ≤ (validTypes.length : Int) then
        some (validTypes.getD (index - 1).toNat "", reader)
      else promptForType fuel reader
    | none =>
      if isValidType input then some (input, reader)
      else promptForType fuel reader

/-- The loop `for { ... }` of `readMultilineInput`, with the slice `lines`
collected so far. -/
def readMultilineLoop : Nat → List String → Reader → Option (List String × Reader)
  | 0, _, _ => none
  | fuel + 1, lines, reader =>
    let (line, reader) := ReadString reader
    let line := TrimSpace line
    if line = "" then some (lines, reader)
    else readMultilineLoop fuel (lines ++ [line]) reader

/-- Go `readMultilineInput`: reads multiple lines of input until an empty
line is entered. -/
def readMultilineInput (fuel : Nat) (reader : Reader) : Option (String × Reader) :=
  match readMultilineLoop fuel [] reader with
  | none => none
  | some (lines, reader) => some (Join lines "\n", reader)

/-- The loop `for description == "" { ... }` of `PromptForCommit`. -/
def promptForTitle : Nat → String → Reader → Option (String × Reader)
  | fuel, description, reader =>
    if description = "" then
      match fuel with
      | 0 => none
      | fuel + 1 =>
        let (line, reader) := ReadString reader
        promptForTitle fuel (TrimSpace line) reader
    else some (description, reader)

/-- The merge of the two multi-line prompts in `PromptForCommit`
(`if body2 != "" { ... }`). -/
def mergeBody (body body2 : String) : String :=
  if body2 ≠ "" then
    if body ≠ "" then body ++ ("\n\n" ++ body2)
    else body2
  else body

/-- Go `PromptForCommit`: prompts the user for commit details. -/
def PromptForCommit (fuel : Nat) (reader : Reader) : Option CommitMessage :=
  match promptForType fuel reader with
  | none => none
  | some (commitType, reader) =>
    let (scope, reader) := ReadString reader
    let scope := TrimSpace scope
    match promptForTitle fuel "" reader with
    | none => none
    | some (description, reader) =>
      match readMultilineInput fuel reader with
      | none => none
      | some (body, reader) =>
        match readMultilineInput fuel reader with
        | none => none
        | some (body2, reader) =>
          let body := mergeBody body body2
          let (breakingInput, reader) := ReadString reader
          let breaking := ToLower (TrimSpace breakingInput) == "y"
          match readMultilineInput fuel reader with
          | none => none
          | some (footer, _) =>
            some
              { Type_ := commitType
                Scope := scope
                Description := description
                Body := body
                Breaking := breaking
                Footer := footer }

/-- Go `(*strings.Builder).WriteString`. -/
def WriteString (sb s : String) : String := sb ++ s

/-- Go `GenerateCommitMessage`: generates a conventional commit message. -/
def GenerateCommitMessage (commit : CommitMessage) : String :=
  let sb := ""
  let sb := WriteString sb commit.Type_
  let sb :=
    if commit.Scope ≠ "" then
      WriteString (WriteString (WriteString sb "(") commit.Scope) ")"
    else sb
  let sb := if commit.Breaking then WriteString sb "!" else sb
  let sb := WriteString sb ": "
  let sb := WriteString sb commit.Description
  let sb :=
    if commit.Body ≠ "" then WriteString (WriteString sb "\n\n") commit.Body
    else sb
  let footer := commit.Footer
  let footer :=
    if commit.Breaking && (footer == "" || !Contains footer "BREAKING CHANGE") then
      if footer = "" then "BREAKING CHANGE: This commit introduces breaking changes."
      else "BREAKING CHANGE: This commit introduces breaking changes.\n" ++ footer
    else footer
  let sb :=
    if footer ≠ "" then WriteString (WriteString sb "\n\n") footer
    else sb
  sb

/-! ## main.go -/

/-- The flag variables of `main.go`. -/
structure Flags where
  commitType : String
  scope : String
  title : String
  description : String
  body : String
  breaking : Bool
  footer : String
  review : Bool
  push : Bool
  interactive : Bool
  deriving DecidableEq, Repr

/-- What a run of the root command has done when it stops or reaches the
commit step. -/
inductive Outcome where
  /-- `color.Red(message)` followed by `os.Exit(status)`. -/
  | exit (status : Nat) (message : String)
  /-- `GenerateCommitMessage(commit)` was called and returned `commitMessage`. -/
  | generated (commit : CommitMessage) (commitMessage : String)
  /-- The interactive collector is still waiting for input. -/
  | waiting
  deriving DecidableEq, Repr

/-- The block `if description != "" { ... }` of the root command. -/
def addDescription (description : String) (commit : CommitMessage) : CommitMessage :=
  if description ≠ "" then
    if commit.Body ≠ "" then { commit with Body := description ++ "\n\n" ++ commit.Body }
    else { commit with Body := description }
  else commit

/-- The `Run` function of the root command up to the call of
`GenerateCommitMessage`.  `IsGitRepository` is the result of the repository
check and `stdin` the input the interactive collector reads. -/
def Run (fuel : Nat) (IsGitRepository : Bool) (f : Flags) (stdin : Reader) : Outcome :=
  if !IsGitRepository then
    Outcome.exit 1
      "Error: Not a Git repository. Please run this command inside a Git repository."
  else if f.interactive || (f.commitType == "" && f.title == "") then
    match PromptForCommit fuel stdin with
    | none => Outcome.waiting
    | some commit => Outcome.generated commit (GenerateCommitMessage commit)
  else if f.commitType = "" then
    Outcome.exit 1 "Error: --type is required in non-interactive mode."
  else if f.title = "" then
    Outcome.exit 1 "Error: --title is required in non-interactive mode."
  else if !isValidType f.commitType then
    Outcome.exit 1 ("Error: Invalid commit type. Valid types are: " ++ Join validTypes ", ")
  else
    let commit : CommitMessage :=
      { Type_ := f.commitType
        Scope := f.scope
        Description := f.title
        Body := f.body
        Breaking := f.breaking
        Footer := f.footer }
    let commit := addDescription f.description commit
    Outcome.generated commit (GenerateCommitMessage commit)


/-! ## The specification's wording -/

/-- The line the serializer injects for a breaking change. -/
def breakingChangeLine : String :=
  "BREAKING CHANGE: This commit introduces breaking changes."

/-- The effective footer as the specification words it: the footer, with the
breaking-change line prepended when `breaking` is true and the footer does
not contain "BREAKING CHANGE" (the line alone when the footer was empty). -/
def effectiveFooter (c : CommitMessage) : String :=
  if c.Breaking = true ∧ Contains c.Footer "BREAKING CHANGE" = false then
    if c.Footer = "" then breakingChangeLine
    else breakingChangeLine ++ "\n" ++ c.Footer
  else c.Footer

/-- What the specification's steps 1 to 5 emit: the header and the body. -/
def headerAndBody (c : CommitMessage) : String :=
  c.Type_ ++ (if c.Scope = "" then "" else "(" ++ c.Scope ++ ")") ++
    (if c.Breaking = true then "!" else "") ++ ": " ++ c.Description ++
    (if c.Body = "" then "" else "\n\n" ++ c.Body)

/-- The merged body as the specification words it: the description text,
a blank line and the body text when both are non-empty, otherwise whichever
of the two is non-empty. -/
def bodySpec (d b : String) : String :=
  if d ≠ "" ∧ b ≠ "" then d ++ "\n\n" ++ b
  else if d ≠ "" then d
  else b

/-- A line that is not empty after trimming white space. -/
def notBlank (line : String) : Bool := TrimSpace line != ""

/-- The line is accepted by one iteration of `promptForType`. -/
def acceptsType (line : String) : Bool := (promptForType 1 [line]).isSome

/-- Some line is accepted by `promptForType` and, after the line that follows
it (the scope), some line is not blank. -/
def hasTypeAndTitle (reader : Reader) : Bool :=
  ((reader.dropWhile (fun l => !acceptsType l)).drop 2).any notBlank

/-- The text one multi-line prompt collects from the pending lines: the lines
before the first blank one, trimmed and joined by a newline. -/
def multilineText (reader : Reader) : String :=
  Join ((reader.takeWhile notBlank).map TrimSpace) "\n"

/-- The lines left after one multi-line prompt: those after the first blank
line. -/
def afterMultiline (reader : Reader) : Reader :=
  reader.drop ((reader.takeWhile notBlank).length + 1)

/-- The lines left after the type, scope and title prompts: those after the
first non-blank line that follows the accepted type line and the scope
line. -/
def afterTitle (reader : Reader) : Reader :=
  (((reader.dropWhile (fun l => !acceptsType l)).drop 2).dropWhile
    (fun l => !notBlank l)).drop 1

/-! ## Lemmas -/

theorem contains_empty_left : Contains "" "BREAKING CHANGE" = false := by decide

theorem append_eq_empty_iff (a b : String) : a ++ b = "" ↔ a = "" ∧ b = "" := by
  simp [String.ext_iff, String.data_append]

theorem generate_eq (c : CommitMessage) :
    GenerateCommitMessage c =
      headerAndBody c ++ (if effectiveFooter c = "" then "" else "\n\n" ++ effectiveFooter c) := by
  have h0 := contains_empty_left
  cases c with
  | mk ty sc de bo br fo =>
    simp only [GenerateCommitMessage, WriteString, effectiveFooter, headerAndBody,
      breakingChangeLine]
    by_cases hs : sc = "" <;> by_cases hb : bo = "" <;> by_cases hf : fo = "" <;>
      cases br <;> cases hc : Contains fo "BREAKING CHANGE" <;>
      simp_all [String.append_assoc, append_eq_empty_iff]

theorem contains_iff (s substr : String) :
    Contains s substr = true ↔ ∃ u v : String, s = u ++ substr ++ v := by
  simp only [Contains, List.any_eq_true, List.mem_tails, List.isPrefixOf_iff_prefix]
  constructor
  · rintro ⟨t, ⟨p, hp⟩, ⟨q, hq⟩⟩
    refine ⟨⟨p⟩, ⟨q⟩, ?_⟩
    apply String.ext
    simp [String.data_append, ← hp, ← hq]
  · rintro ⟨u, v, rfl⟩
    refine ⟨substr.data ++ v.data, ⟨u.data, ?_⟩, ⟨v.data, rfl⟩⟩
    simp [String.data_append]

theorem isValidTypeLoop_iff (t : String) (l : List String) :
    isValidTypeLoop t l = true ↔ t ∈ l := by
  induction l with
  | nil => simp [isValidTypeLoop]
  | cons a rest ih =>
    rw [isValidTypeLoop]
    by_cases h : t = a
    · simp [h]
    · simp [h, ih]

theorem validTypes_getD_valid :
    ∀ n, n < 11 → isValidType (validTypes.getD n "") = true := by decide

theorem promptForType_valid :
    ∀ (fuel : Nat) (reader : Reader) (t : String) (r : Reader),
      promptForType fuel reader = some (t, r) → isValidType t = true := by
  intro fuel
  induction fuel with
  | zero => intro reader t r h; simp [promptForType] at h
  | succ fuel ih =>
    intro reader t r h
    unfold promptForType at h
    simp only at h
    split at h
    · rename_i index _
      split at h
      · rename_i hidx
        simp only [Option.some.injEq, Prod.mk.injEq] at h
        rw [← h.1]
        apply validTypes_getD_valid
        have : (validTypes.length : Int) = 11 := by decide
        omega
      · exact ih _ _ _ h
    · split at h
      · rename_i hv
        simp only [Option.some.injEq, Prod.mk.injEq] at h
        rw [← h.1]; exact hv
      · exact ih _ _ _ h

theorem PromptForCommit_type (fuel : Nat) (reader : Reader) (c : CommitMessage)
    (h : PromptForCommit fuel reader = some c) :
    ∃ r, promptForType fuel reader = some (c.Type_, r) := by
  unfold PromptForCommit at h
  split at h
  · simp at h
  · rename_i commitType r1 hty
    simp only at h
    split at h
    · simp at h
    · split at h
      · simp at h
      · split at h
        · simp at h
        · split at h
          · simp at h
          · simp only [Option.some.injEq] at h
            subst h
            exact ⟨r1, hty⟩

theorem trimSpace_empty : TrimSpace "" = "" := by decide

theorem readMultilineLoop_eq (reader : Reader) :
    ∀ (k : Nat) (lines : List String),
      readMultilineLoop (k + reader.length + 1) lines reader =
        some (lines ++ (reader.takeWhile notBlank).map TrimSpace,
          reader.drop ((reader.takeWhile notBlank).length + 1)) := by
  induction reader with
  | nil =>
    intro k lines
    simp [readMultilineLoop, ReadString, trimSpace_empty]
  | cons l rest ih =>
    intro k lines
    have hfuel : k + (l :: rest).length + 1 = (k + rest.length + 1) + 1 := by
      simp only [List.length_cons]; omega
    rw [hfuel]
    unfold readMultilineLoop
    simp only [ReadString]
    by_cases hl : TrimSpace l = ""
    · simp [hl, notBlank]
    · simp [hl, notBlank, ih k (lines ++ [TrimSpace l])]

theorem readMultilineInput_eq (reader : Reader) (k : Nat) :
    readMultilineInput (k + reader.length + 1) reader =
      some (Join ((reader.takeWhile notBlank).map TrimSpace) "\n",
        reader.drop ((reader.takeWhile notBlank).length + 1)) := by
  simp [readMultilineInput, readMultilineLoop_eq]

theorem promptForType_nil : ∀ fuel : Nat, promptForType fuel [] = none := by
  intro fuel
  induction fuel with
  | zero => rfl
  | succ fuel ih =>
    unfold promptForType
    have h1 : Sscanf (TrimSpace "") = none := by decide
    have h2 : isValidType (TrimSpace "") = false := by decide
    simp [ReadString, h1, h2, ih]

theorem promptForType_succ (fuel : Nat) (l : String) (rest : Reader) :
    promptForType (fuel + 1) (l :: rest) =
      match Sscanf (TrimSpace l) with
      | some index =>
        if index ≥ 1 ∧ index ≤ (validTypes.length : Int) then
          some (validTypes.getD (index - 1).toNat "", rest)
        else promptForType fuel rest
      | none =>
        if isValidType (TrimSpace l) then some (TrimSpace l, rest)
        else promptForType fuel rest := by
  rw [promptForType]
  rfl

theorem promptForType_reject (fuel : Nat) (l : String) (rest : Reader)
    (h : acceptsType l = false) :
    promptForType (fuel + 1) (l :: rest) = promptForType fuel rest := by
  unfold acceptsType at h
  rw [promptForType_succ] at h ⊢
  split
  · rename_i index hs
    rw [hs] at h
    simp only at h
    split
    · rename_i hidx
      simp [hidx] at h
    · rfl
  · rename_i hs
    rw [hs] at h
    simp only at h
    split
    · rename_i hv
      simp [hv] at h
    · rfl

theorem promptForType_accept (fuel : Nat) (l : String) (rest : Reader)
    (h : acceptsType l = true) :
    ∃ t, promptForType (fuel + 1) (l :: rest) = some (t, rest) := by
  unfold acceptsType at h
  rw [promptForType_succ] at h ⊢
  split
  · rename_i index hs
    rw [hs] at h
    simp only at h
    split
    · exact ⟨_, rfl⟩
    · rename_i hidx
      simp [hidx, promptForType] at h
  · rename_i hs
    rw [hs] at h
    simp only at h
    split
    · exact ⟨_, rfl⟩
    · rename_i hv
      simp [hv, promptForType] at h

theorem promptForType_sound :
    ∀ (fuel : Nat) (reader : Reader) (t : String) (r : Reader),
      promptForType fuel reader = some (t, r) →
        reader.dropWhile (fun l => !acceptsType l) ≠ [] ∧
          r = (reader.dropWhile (fun l => !acceptsType l)).drop 1 := by
  intro fuel
  induction fuel with
  | zero => intro reader t r h; simp [promptForType] at h
  | succ fuel ih =>
    intro reader t r h
    cases reader with
    | nil => rw [promptForType_nil] at h; simp at h
    | cons l rest =>
      cases ha : acceptsType l with
      | false =>
        rw [promptForType_reject fuel l rest ha] at h
        have := ih rest t r h
        simpa [List.dropWhile_cons, ha] using this
      | true =>
        obtain ⟨t', ht'⟩ := promptForType_accept fuel l rest ha
        rw [ht'] at h
        simp only [Option.some.injEq, Prod.mk.injEq] at h
        simp [List.dropWhile_cons, ha, h.2]

theorem promptForType_total (reader : Reader) :
    ∀ k : Nat, reader.dropWhile (fun l => !acceptsType l) ≠ [] →
      ∃ t, promptForType (k + reader.length + 1) reader =
        some (t, (reader.dropWhile (fun l => !acceptsType l)).drop 1) := by
  induction reader with
  | nil => intro k h; simp at h
  | cons l rest ih =>
    intro k h
    have hfuel : k + (l :: rest).length + 1 = (k + rest.length + 1) + 1 := by
      simp only [List.length_cons]; omega
    rw [hfuel]
    cases ha : acceptsType l with
    | false =>
      rw [promptForType_reject _ l rest ha]
      simp only [List.dropWhile_cons, ha, Bool.not_false, ite_true] at h ⊢
      exact ih k h
    | true =>
      obtain ⟨t, ht⟩ := promptForType_accept (k + rest.length + 1) l rest ha
      exact ⟨t, by simp [ht, List.dropWhile_cons, ha]⟩

theorem promptForTitle_done (fuel : Nat) (d : String) (reader : Reader) (h : d ≠ "") :
    promptForTitle fuel d reader = some (d, reader) := by
  unfold promptForTitle
  simp [h]

theorem dropWhile_head_not (p : Char → Bool) (x : List Char) (h : Char) (t : List Char)
    (hx : x.dropWhile p = h :: t) : p h = false := by
  induction x with
  | nil => simp at hx
  | cons c cs ih =>
    by_cases hc : p c = true
    · rw [List.dropWhile_cons_of_pos hc] at hx
      exact ih hx
    · rw [List.dropWhile_cons_of_neg hc] at hx
      simp only [List.cons.injEq] at hx
      rw [← hx.1]
      simpa using hc

theorem trimSpace_data (s : String) :
    (TrimSpace s).data = (s.data.dropWhile isSpace).rdropWhile isSpace := rfl

theorem trimSpace_idem (s : String) : TrimSpace (TrimSpace s) = TrimSpace s := by
  apply String.ext
  rw [trimSpace_data (TrimSpace s), trimSpace_data s]
  have hfront : ((s.data.dropWhile isSpace).rdropWhile isSpace).dropWhile isSpace =
      (s.data.dropWhile isSpace).rdropWhile isSpace := by
    cases hr : (s.data.dropWhile isSpace).rdropWhile isSpace with
    | nil => rfl
    | cons h t =>
      obtain ⟨u, hu⟩ := List.rdropWhile_prefix isSpace (s.data.dropWhile isSpace)
      rw [hr] at hu
      have hh : isSpace h = false :=
        dropWhile_head_not isSpace s.data h (t ++ u) (by rw [← hu]; rfl)
      rw [List.dropWhile_cons_of_neg (by simp [hh])]
  rw [hfront, List.rdropWhile_idempotent]

theorem promptForTitle_sound :
    ∀ (fuel : Nat) (reader : Reader) (d : String) (r : Reader),
      promptForTitle fuel "" reader = some (d, r) →
        reader.any notBlank = true ∧ d ≠ "" ∧ TrimSpace d = d := by
  intro fuel
  induction fuel with
  | zero => intro reader d r h; simp [promptForTitle] at h
  | succ fuel ih =>
    intro reader d r h
    cases reader with
    | nil =>
      rw [promptForTitle] at h
      simp only [ReadString, trimSpace_empty, if_true] at h
      have := (ih [] d r h).1
      simp at this
    | cons l rest =>
      rw [promptForTitle] at h
      simp only [ReadString, if_true] at h
      by_cases hl : TrimSpace l = ""
      · rw [hl] at h
        have := ih rest d r h
        refine ⟨?_, this.2⟩
        simp [List.any_cons, this.1]
      · rw [promptForTitle_done fuel _ rest hl] at h
        simp only [Option.some.injEq, Prod.mk.injEq] at h
        refine ⟨?_, ?_, ?_⟩
        · simp [List.any_cons, notBlank, hl]
        · rw [← h.1]; exact hl
        · rw [← h.1]; exact trimSpace_idem l

theorem promptForTitle_total (reader : Reader) :
    ∀ k : Nat, reader.any notBlank = true →
      ∃ d r, promptForTitle (k + reader.length + 1) "" reader = some (d, r) ∧
        r.length ≤ reader.length := by
  induction reader with
  | nil => intro k h; simp at h
  | cons l rest ih =>
    intro k h
    have hfuel : k + (l :: rest).length + 1 = (k + rest.length + 1) + 1 := by
      simp only [List.length_cons]; omega
    rw [hfuel, promptForTitle]
    simp only [ReadString, if_true]
    by_cases hl : TrimSpace l = ""
    · rw [hl]
      have hrest : rest.any notBlank = true := by
        simpa [List.any_cons, notBlank, hl] using h
      obtain ⟨d, r, hd, hr⟩ := ih k hrest
      exact ⟨d, r, hd, by simp only [List.length_cons]; omega⟩
    · rw [promptForTitle_done _ _ rest hl]
      exact ⟨_, _, rfl, by simp⟩

theorem fuel_split (fuel n : Nat) (h : n < fuel) : ∃ k, fuel = k + n + 1 :=
  ⟨fuel - n - 1, by omega⟩

theorem readString_snd (reader : Reader) : (ReadString reader).2 = reader.drop 1 := by
  cases reader <;> rfl

theorem readMultilineInput_total (fuel : Nat) (reader : Reader) (h : reader.length < fuel) :
    ∃ text r, readMultilineInput fuel reader = some (text, r) ∧ r.length ≤ reader.length := by
  obtain ⟨k, rfl⟩ := fuel_split fuel reader.length h
  exact ⟨_, _, readMultilineInput_eq reader k, by simp⟩

theorem PromptForCommit_total (fuel : Nat) (reader : Reader) (hfuel : reader.length < fuel)
    (h : hasTypeAndTitle reader = true) :
    ∃ c, PromptForCommit fuel reader = some c := by
  unfold hasTypeAndTitle at h
  have hne : reader.dropWhile (fun l => !acceptsType l) ≠ [] := by
    intro hnil
    rw [hnil] at h
    simp at h
  obtain ⟨k, hk⟩ := fuel_split fuel reader.length hfuel
  obtain ⟨t, ht⟩ := promptForType_total reader k hne
  rw [← hk] at ht
  have hlen1 : ((reader.dropWhile (fun l => !acceptsType l)).drop 2).length ≤ reader.length := by
    have := (List.dropWhile_sublist (fun l => !acceptsType l) (l := reader)).length_le
    simp only [List.length_drop]
    omega
  obtain ⟨k2, hk2⟩ := fuel_split fuel _ (Nat.lt_of_le_of_lt hlen1 hfuel)
  obtain ⟨d, r2, hd, hr2⟩ := promptForTitle_total _ k2 h
  rw [← hk2] at hd
  obtain ⟨b1, r3, hb1, hr3⟩ := readMultilineInput_total fuel r2 (by omega)
  obtain ⟨b2, r4, hb2, hr4⟩ := readMultilineInput_total fuel r3 (by omega)
  have hr5 : (ReadString r4).2.length < fuel := by
    rw [readString_snd, List.length_drop]
    omega
  obtain ⟨ft, r6, hft, _⟩ := readMultilineInput_total fuel (ReadString r4).2 hr5
  unfold PromptForCommit
  simp only [ht, readString_snd, List.drop_drop, hd, hb1, hb2]
  rw [readString_snd] at hft
  simp only [hft]
  exact ⟨_, rfl⟩

theorem PromptForCommit_sound (fuel : Nat) (reader : Reader) (c : CommitMessage)
    (h : PromptForCommit fuel reader = some c) :
    hasTypeAndTitle reader = true ∧ c.Description ≠ "" ∧
      TrimSpace c.Description = c.Description := by
  unfold PromptForCommit at h
  split at h
  · simp at h
  · rename_i commitType r1 hty
    simp only at h
    split at h
    · simp at h
    · rename_i description r2 hti
      have hs := promptForType_sound _ _ _ _ hty
      have hts := promptForTitle_sound _ _ _ _ hti
      split at h
      · simp at h
      · split at h
        · simp at h
        · split at h
          · simp at h
          · simp only [Option.some.injEq] at h
            subst h
            refine ⟨?_, hts.2.1, hts.2.2⟩
            unfold hasTypeAndTitle
            rw [readString_snd, hs.2, List.drop_drop] at hts
            exact hts.1

theorem readMultilineLoop_sound :
    ∀ (fuel : Nat) (lines : List String) (reader : Reader) (res : List String × Reader),
      readMultilineLoop fuel lines reader = some res →
        res = (lines ++ (reader.takeWhile notBlank).map TrimSpace,
          reader.drop ((reader.takeWhile notBlank).length + 1)) := by
  intro fuel
  induction fuel with
  | zero => intro lines reader res h; simp [readMultilineLoop] at h
  | succ fuel ih =>
    intro lines reader res h
    rw [readMultilineLoop] at h
    cases reader with
    | nil =>
      simp only [ReadString, trimSpace_empty, if_true, Option.some.injEq] at h
      simp [← h]
    | cons l rest =>
      simp only [ReadString] at h
      by_cases hl : TrimSpace l = ""
      · simp only [hl, if_true, Option.some.injEq] at h
        simp [← h, notBlank, hl]
      · simp only [hl, if_false] at h
        have := ih _ _ _ h
        simp [this, notBlank, hl]

theorem run_nonInteractive (fuel : Nat) (f : Flags) (stdin : Reader)
    (hi : f.interactive = false) (hm : f.commitType ≠ "" ∨ f.title ≠ "") :
    Run fuel true f stdin =
      if f.commitType = "" then
        Outcome.exit 1 "Error: --type is required in non-interactive mode."
      else if f.title = "" then
        Outcome.exit 1 "Error: --title is required in non-interactive mode."
      else if isValidType f.commitType = false then
        Outcome.exit 1 ("Error: Invalid commit type. Valid types are: " ++ Join validTypes ", ")
      else
        Outcome.generated
          (addDescription f.description
            ⟨f.commitType, f.scope, f.title, f.body, f.breaking, f.footer⟩)
          (GenerateCommitMessage
            (addDescription f.description
              ⟨f.commitType, f.scope, f.title, f.body, f.breaking, f.footer⟩)) := by
  have hmode : (f.interactive || (f.commitType == "" && f.title == "")) = false := by
    rcases hm with h | h <;> simp [hi, h]
  unfold Run
  simp only [Bool.not_true, hmode]
  by_cases h1 : f.commitType = "" <;> by_cases h2 : f.title = "" <;>
    cases h3 : isValidType f.commitType <;> simp [h1, h2, h3]

theorem addDescription_fields (d : String) (c : CommitMessage) :
    (addDescription d c).Type_ = c.Type_ ∧ (addDescription d c).Scope = c.Scope ∧
      (addDescription d c).Description = c.Description ∧
      (addDescription d c).Breaking = c.Breaking ∧ (addDescription d c).Footer = c.Footer ∧
      (addDescription d c).Body = bodySpec d c.Body := by
  unfold addDescription bodySpec
  by_cases hd : d = "" <;> by_cases hb : c.Body = "" <;> simp [hd, hb]

theorem mergeBody_eq (d b : String) : mergeBody d b = bodySpec d b := by
  unfold mergeBody bodySpec
  by_cases hd : d = "" <;> by_cases hb : b = "" <;> simp [hd, hb, String.append_assoc]

theorem promptForTitle_rest :
    ∀ (fuel : Nat) (reader : Reader) (d : String) (r : Reader),
      promptForTitle fuel "" reader = some (d, r) →
        r = (reader.dropWhile (fun l => !notBlank l)).drop 1 := by
  intro fuel
  induction fuel with
  | zero => intro reader d r h; simp [promptForTitle] at h
  | succ fuel ih =>
    intro reader d r h
    cases reader with
    | nil =>
      have := (promptForTitle_sound _ _ _ _ h).1
      simp at this
    | cons l rest =>
      rw [promptForTitle] at h
      simp only [ReadString, if_true] at h
      by_cases hl : TrimSpace l = ""
      · rw [hl] at h
        have := ih rest d r h
        simp [List.dropWhile_cons, notBlank, hl, this]
      · rw [promptForTitle_done fuel _ rest hl] at h
        simp only [Option.some.injEq, Prod.mk.injEq] at h
        simp [List.dropWhile_cons, notBlank, hl, h.2]

theorem readMultilineInput_sound (fuel : Nat) (reader : Reader) (text : String) (r : Reader)
    (h : readMultilineInput fuel reader = some (text, r)) :
    text = multilineText reader ∧ r = afterMultiline reader := by
  unfold readMultilineInput at h
  split at h
  · simp at h
  · rename_i lines r1 hl
    have := readMultilineLoop_sound _ _ _ _ hl
    simp only [List.nil_append, Prod.mk.injEq] at this
    simp only [Option.some.injEq, Prod.mk.injEq] at h
    rw [← h.1, ← h.2, this.1, this.2]
    exact ⟨rfl, rfl⟩

theorem PromptForCommit_chain (fuel : Nat) (reader : Reader) (c : CommitMessage)
    (h : PromptForCommit fuel reader = some c) :
    ∃ (t : String) (r0 : Reader) (title : String) (r1 : Reader) (d : String) (r2 : Reader)
      (b : String) (r3 : Reader),
      promptForType fuel reader = some (t, r0) ∧
        promptForTitle fuel "" (ReadString r0).2 = some (title, r1) ∧
        readMultilineInput fuel r1 = some (d, r2) ∧
        readMultilineInput fuel r2 = some (b, r3) ∧ c.Body = mergeBody d b := by
  unfold PromptForCommit at h
  split at h
  · simp at h
  · rename_i t r0 ht
    simp only at h
    split at h
    · simp at h
    · rename_i title r1 hti
      split at h
      · simp at h
      · rename_i d r2 hd
        split at h
        · simp at h
        · rename_i b r3 hb
          split at h
          · simp at h
          · simp only [Option.some.injEq] at h
            subst h
            exact ⟨t, r0, title, r1, d, r2, b, r3, ht, hti, hd, hb, rfl⟩

/-! ## The claims -/

/-- C1: for every commit message, `GenerateCommitMessage` returns exactly the
type, then the scope in parentheses when it is non-empty, then `!` when
breaking, then `: ` and the description, then a blank line and the body when
it is non-empty, then a blank line and the effective footer when that is
non-empty; `feat`, scope `api`, title `add x` gives `feat(api): add x`. -/
theorem GenerateCommitMessage_concatenation :
    (∀ c : CommitMessage,
      GenerateCommitMessage c =
        c.Type_ ++ (if c.Scope = "" then "" else "(" ++ c.Scope ++ ")") ++
          (if c.Breaking = true then "!" else "") ++ ": " ++ c.Description ++
          (if c.Body = "" then "" else "\n\n" ++ c.Body) ++
          (if effectiveFooter c = "" then "" else "\n\n" ++ effectiveFooter c)) ∧
    GenerateCommitMessage
        { Type_ := "feat", Scope := "api", Description := "add x", Body := "",
          Breaking := false, Footer := "" } = "feat(api): add x" := by
  refine ⟨fun c => ?_, by decide⟩
  rw [generate_eq c]
  rfl

/-- C2: the footer `GenerateCommitMessage` emits after the header and body is
the breaking-change line alone when breaking with an empty footer, that line,
a newline and the footer when breaking with a non-empty footer that has no
occurrence of the text BREAKING CHANGE, and the footer unchanged when not
breaking or when the footer has such an occurrence; the match is
case-sensitive, and the two examples of the specification hold. -/
theorem GenerateCommitMessage_footer :
    (∀ c : CommitMessage, c.Breaking = true → c.Footer = "" →
      GenerateCommitMessage c = headerAndBody c ++ "\n\n" ++
        "BREAKING CHANGE: This commit introduces breaking changes.") ∧
    (∀ c : CommitMessage, c.Breaking = true → c.Footer ≠ "" →
      (¬ ∃ u v : String, c.Footer = u ++ "BREAKING CHANGE" ++ v) →
      GenerateCommitMessage c = headerAndBody c ++ "\n\n" ++
        ("BREAKING CHANGE: This commit introduces breaking changes." ++ "\n" ++ c.Footer)) ∧
    (∀ c : CommitMessage,
      (c.Breaking = false ∨ ∃ u v : String, c.Footer = u ++ "BREAKING CHANGE" ++ v) →
      GenerateCommitMessage c =
        headerAndBody c ++ (if c.Footer = "" then "" else "\n\n" ++ c.Footer)) ∧
    GenerateCommitMessage
        { Type_ := "fix", Scope := "", Description := "y", Body := "",
          Breaking := true, Footer := "breaking change: none" } =
      "fix!: y\n\nBREAKING CHANGE: This commit introduces breaking changes.\nbreaking change: none" ∧
    GenerateCommitMessage
        { Type_ := "fix", Scope := "", Description := "y", Body := "",
          Breaking := true, Footer := "" } =
      "fix!: y\n\nBREAKING CHANGE: This commit introduces breaking changes." ∧
    GenerateCommitMessage
        { Type_ := "chore", Scope := "", Description := "z", Body := "",
          Breaking := true, Footer := "ref #1" } =
      "chore!: z\n\nBREAKING CHANGE: This commit introduces breaking changes.\nref #1" := by
  refine ⟨?_, ?_, ?_, by decide, by decide, by decide⟩
  · intro c hb hf
    rw [generate_eq c]
    simp [effectiveFooter, hb, hf, contains_empty_left, breakingChangeLine, String.append_assoc]
  · intro c hb hf hc
    have hc2 : Contains c.Footer "BREAKING CHANGE" = false := by
      rw [← Bool.not_eq_true, contains_iff]
      exact hc
    rw [generate_eq c]
    simp [effectiveFooter, hb, hf, hc2, breakingChangeLine, String.append_assoc,
      append_eq_empty_iff]
  · intro c hc
    rw [generate_eq c]
    have he : effectiveFooter c = c.Footer := by
      unfold effectiveFooter
      rcases hc with h | h
      · simp [h]
      · rw [← contains_iff] at h
        simp [h]
    rw [he]

/-- C2, at the message `chore`, `z`, breaking, footer `ref #1`: the footer has
no occurrence of BREAKING CHANGE and the line is injected before it. -/
theorem GenerateCommitMessage_footer_witness :
    GenerateCommitMessage ⟨"chore", "", "z", "", true, "ref #1"⟩ =
      headerAndBody ⟨"chore", "", "z", "", true, "ref #1"⟩ ++ "\n\n" ++
        ("BREAKING CHANGE: This commit introduces breaking changes." ++ "\n" ++ "ref #1") :=
  GenerateCommitMessage_footer.2.1 ⟨"chore", "", "z", "", true, "ref #1"⟩ rfl (by decide)
    (fun h => by
      have hc := (contains_iff "ref #1" "BREAKING CHANGE").mpr h
      revert hc
      decide)

/-- C3: `isValidType` is true exactly on the eleven strings feat, fix, docs,
style, refactor, perf, test, build, ci, chore and revert, compared
case-sensitively and without trimming; it is true on `feat` and false on
`feature`, `Feat` and the empty string. -/
theorem isValidType_exact :
    (∀ t : String, isValidType t = true ↔
      (t = "feat" ∨ t = "fix" ∨ t = "docs" ∨ t = "style" ∨ t = "refactor" ∨ t = "perf" ∨
        t = "test" ∨ t = "build" ∨ t = "ci" ∨ t = "chore" ∨ t = "revert")) ∧
    isValidType "feat" = true ∧ isValidType "feature" = false ∧
      isValidType "Feat" = false ∧ isValidType "" = false ∧ isValidType " feat" = false := by
  refine ⟨fun t => ?_, by decide, by decide, by decide, by decide, by decide⟩
  rw [isValidType, isValidTypeLoop_iff]
  simp [validTypes]

/-- C4: in non-interactive mode (interactive flag false, type or title
non-empty, inside a repository) the root command fails with the type-required
error when the type is empty, otherwise with the title-required error when
the title is empty, otherwise with the invalid-type error when `isValidType`
rejects the type, and otherwise builds the commit message from the flags;
each failure is exit status 1 and no call of `GenerateCommitMessage`. -/
theorem Run_nonInteractive_validation (fuel : Nat) (f : Flags) (stdin : Reader)
    (hi : f.interactive = false) (hm : f.commitType ≠ "" ∨ f.title ≠ "") :
    (f.commitType = "" →
      Run fuel true f stdin =
          Outcome.exit 1 "Error: --type is required in non-interactive mode." ∧
        ∀ c m, Run fuel true f stdin ≠ Outcome.generated c m) ∧
    (f.commitType ≠ "" → f.title = "" →
      Run fuel true f stdin =
          Outcome.exit 1 "Error: --title is required in non-interactive mode." ∧
        ∀ c m, Run fuel true f stdin ≠ Outcome.generated c m) ∧
    (f.commitType ≠ "" → f.title ≠ "" → isValidType f.commitType = false →
      Run fuel true f stdin =
          Outcome.exit 1
            ("Error: Invalid commit type. Valid types are: " ++
              "feat, fix, docs, style, refactor, perf, test, build, ci, chore, revert") ∧
        ∀ c m, Run fuel true f stdin ≠ Outcome.generated c m) ∧
    (f.commitType ≠ "" → f.title ≠ "" → isValidType f.commitType = true →
      ∃ c : CommitMessage,
        Run fuel true f stdin = Outcome.generated c (GenerateCommitMessage c) ∧
          c.Type_ = f.commitType ∧ c.Scope = f.scope ∧ c.Description = f.title ∧
          c.Breaking = f.breaking ∧ c.Footer = f.footer) := by
  have hrun := run_nonInteractive fuel f stdin hi hm
  have hjoin : Join validTypes ", " =
      "feat, fix, docs, style, refactor, perf, test, build, ci, chore, revert" := by decide
  refine ⟨?_, ?_, ?_, ?_⟩
  · intro h1
    rw [hrun]
    simp [h1]
  · intro h1 h2
    rw [hrun]
    simp [h1, h2]
  · intro h1 h2 h3
    rw [hrun]
    simp [h1, h2, h3, hjoin]
  · intro h1 h2 h3
    rw [hrun]
    simp only [h1, h2, h3, if_false, Bool.true_eq_false]
    have hf := addDescription_fields f.description
      ⟨f.commitType, f.scope, f.title, f.body, f.breaking, f.footer⟩
    exact ⟨_, rfl, hf.1, hf.2.1, hf.2.2.1, hf.2.2.2.1, hf.2.2.2.2.1⟩

/-- C4, at type empty and title `x`: the run fails with the type-required
error and status 1, and generates nothing. -/
theorem Run_nonInteractive_validation_witness :
    Run 0 true ⟨"", "", "x", "", "", false, "", false, false, false⟩ [] =
        Outcome.exit 1 "Error: --type is required in non-interactive mode." ∧
      ∀ c m, Run 0 true ⟨"", "", "x", "", "", false, "", false, false, false⟩ [] ≠
        Outcome.generated c m :=
  (Run_nonInteractive_validation 0 ⟨"", "", "x", "", "", false, "", false, false, false⟩ []
    rfl (Or.inr (by decide))).1 rfl

/-- C5: every type `promptForType` returns satisfies `isValidType`, whatever
the input and however it was selected, and every commit message a run of the
root command hands to `GenerateCommitMessage`, in either mode, has a type
that satisfies `isValidType`. -/
theorem type_always_valid :
    (∀ (fuel : Nat) (reader : Reader) (t : String) (r : Reader),
      promptForType fuel reader = some (t, r) → isValidType t = true) ∧
    (∀ (fuel : Nat) (git : Bool) (f : Flags) (stdin : Reader) (c : CommitMessage)
      (m : String), Run fuel git f stdin = Outcome.generated c m →
        isValidType c.Type_ = true) := by
  refine ⟨promptForType_valid, ?_⟩
  intro fuel git f stdin c m h
  unfold Run at h
  split at h
  · simp at h
  · split at h
    · split at h
      · simp at h
      · rename_i c' hc'
        simp only [Outcome.generated.injEq] at h
        obtain ⟨r, hr⟩ := PromptForCommit_type fuel stdin c' hc'
        rw [← h.1]
        exact promptForType_valid _ _ _ _ hr
    · split at h
      · simp at h
      · split at h
        · simp at h
        · split at h
          · simp at h
          · rename_i hv
            simp only [Outcome.generated.injEq] at h
            rw [← h.1, (addDescription_fields _ _).1]
            simpa using hv

/-- C5, at the input lines `x`, `3`: the second line selects `docs`, which is
a valid type. -/
theorem type_always_valid_witness : isValidType "docs" = true :=
  type_always_valid.1 2 ["x\n", "3\n"] "docs" [] (by decide)

/-- C6, the non-interactive path at type `feat` and a title of three spaces:
validation passes and the message, whose description is empty after
trimming, is serialized. -/
theorem Run_blank_title_serialized :
    Run 0 true ⟨"feat", "", "   ", "", "", false, "", false, false, false⟩ [] =
        Outcome.generated ⟨"feat", "", "   ", "", false, ""⟩ "feat:    " ∧
      TrimSpace "   " = "" := by
  decide

/-- C7: with fuel above the number of lines, `readMultilineInput` returns the
lines before the first blank one (blank after trimming), each trimmed, in
order, joined by a single newline, and leaves unread exactly the lines after
that blank line (nothing when there is none); whatever the fuel, a returned
result is that one; a blank first line gives the empty string; the lines
`a`, `  b `, `   `, `c` give `a\nb` and leave `c`. -/
theorem readMultilineInput_spec :
    (∀ (reader : Reader) (k : Nat),
      readMultilineInput (k + reader.length + 1) reader =
        some (Join ((reader.takeWhile notBlank).map TrimSpace) "\n",
          reader.drop ((reader.takeWhile notBlank).length + 1))) ∧
    (∀ (fuel : Nat) (reader : Reader) (text : String) (r : Reader),
      readMultilineInput fuel reader = some (text, r) →
        text = Join ((reader.takeWhile notBlank).map TrimSpace) "\n" ∧
          r = reader.drop ((reader.takeWhile notBlank).length + 1)) ∧
    (∀ (l : String) (rest : Reader) (k : Nat), TrimSpace l = "" →
      readMultilineInput (k + 1) (l :: rest) = some ("", rest)) ∧
    readMultilineInput 5 ["a\n", "  b \n", "   \n", "c\n"] = some ("a\nb", ["c\n"]) := by
  refine ⟨readMultilineInput_eq, ?_, ?_, by decide⟩
  · intro fuel reader text r h
    unfold readMultilineInput at h
    split at h
    · simp at h
    · rename_i lines r' hl
      have := readMultilineLoop_sound _ _ _ _ hl
      simp only [List.nil_append, Prod.mk.injEq] at this
      simp only [Option.some.injEq, Prod.mk.injEq] at h
      rw [← h.1, ← h.2, this.1, this.2]
      exact ⟨rfl, rfl⟩
  · intro l rest k hl
    simp [readMultilineInput, readMultilineLoop, ReadString, hl, Join]

/-- C7, at the lines `a`, blank, `c` with fuel 1: the loop has not returned
yet with that fuel, and with fuel 2 it returns `a` and leaves `c`. -/
theorem readMultilineInput_spec_witness :
    "a" = Join ((["a\n", "\n", "c\n"].takeWhile notBlank).map TrimSpace) "\n" ∧
      ["c\n"] = ["a\n", "\n", "c\n"].drop ((["a\n", "\n", "c\n"].takeWhile notBlank).length + 1) :=
  readMultilineInput_spec.2.1 2 ["a\n", "\n", "c\n"] "a" ["c\n"] (by decide)

/-- C8, at the line `3abc`: `promptForType` accepts it and returns `docs`,
although the line is a number followed by other text. -/
theorem promptForType_trailing_text :
    (∀ (fuel : Nat) (rest : Reader),
      promptForType (fuel + 1) ("3abc\n" :: rest) = some ("docs", rest)) ∧
    isValidType "3abc" = false := by
  refine ⟨fun fuel rest => ?_, by decide⟩
  rw [promptForType_succ]
  have h : Sscanf (TrimSpace "3abc\n") = some 3 := by decide
  rw [h]
  rfl

/-- C9: the merge of the description flag into the body flag and the merge of
the two multi-line prompts are the same function of the description text and
the body text: the two joined by a blank line, description first, when both
are non-empty, and otherwise whichever is non-empty.  This is the body `Run`
builds from the flags, and the body `PromptForCommit` builds from the texts
its first and second `readMultilineInput` calls return on the lines that
follow the title, which are the texts before the first and the second blank
line after the title; the lines `why` and `how` and the flags `why` and `how`
both give `why`, a blank line, `how`. -/
theorem merge_paths_agree :
    (∀ d b : String, ∀ c : CommitMessage,
      c.Body = b → (addDescription d c).Body = mergeBody d b) ∧
    (∀ d b : String, mergeBody d b =
      if d ≠ "" ∧ b ≠ "" then d ++ "\n\n" ++ b else if d ≠ "" then d else b) ∧
    (∀ (fuel : Nat) (f : Flags) (stdin : Reader) (c : CommitMessage) (m : String),
      f.interactive = false → (f.commitType ≠ "" ∨ f.title ≠ "") →
        Run fuel true f stdin = Outcome.generated c m →
          c.Body = bodySpec f.description f.body) ∧
    (∀ (fuel : Nat) (reader : Reader) (c : CommitMessage),
      PromptForCommit fuel reader = some c →
        ∃ (t : String) (r0 : Reader) (title : String) (r1 : Reader) (d : String)
          (r2 : Reader) (b : String) (r3 : Reader),
          promptForType fuel reader = some (t, r0) ∧
            promptForTitle fuel "" (ReadString r0).2 = some (title, r1) ∧
            readMultilineInput fuel r1 = some (d, r2) ∧
            readMultilineInput fuel r2 = some (b, r3) ∧
            c.Body = (if d ≠ "" ∧ b ≠ "" then d ++ "\n\n" ++ b else if d ≠ "" then d else b)) ∧
    (∀ (fuel : Nat) (reader : Reader) (c : CommitMessage),
      PromptForCommit fuel reader = some c →
        c.Body =
          bodySpec (multilineText (afterTitle reader))
            (multilineText (afterMultiline (afterTitle reader)))) ∧
    PromptForCommit 3 ["feat\n", "\n", "t\n", "why\n", "\n", "how\n", "\n", "n\n", "\n"] =
      some ⟨"feat", "", "t", "why\n\nhow", false, ""⟩ ∧
    Run 0 true ⟨"feat", "", "t", "why", "how", false, "", false, false, false⟩ [] =
      Outcome.generated ⟨"feat", "", "t", "why\n\nhow", false, ""⟩ "feat: t\n\nwhy\n\nhow" := by
  refine ⟨?_, ?_, ?_, ?_, ?_, by decide, by decide⟩
  · intro d b c hc
    rw [(addDescription_fields d c).2.2.2.2.2, mergeBody_eq, hc]
  · intro d b
    rw [mergeBody_eq]
    rfl
  · intro fuel f stdin c m hi hm h
    rw [run_nonInteractive fuel f stdin hi hm] at h
    split at h
    · simp at h
    · split at h
      · simp at h
      · split at h
        · simp at h
        · simp only [Outcome.generated.injEq] at h
          rw [← h.1, (addDescription_fields _ _).2.2.2.2.2]
  · intro fuel reader c h
    obtain ⟨t, r0, title, r1, d, r2, b, r3, h0, h1, h2, h3, h4⟩ :=
      PromptForCommit_chain fuel reader c h
    refine ⟨t, r0, title, r1, d, r2, b, r3, h0, h1, h2, h3, ?_⟩
    rw [h4, mergeBody_eq]
    rfl
  · intro fuel reader c h
    obtain ⟨t, r0, title, r1, d, r2, b, r3, h0, h1, h2, h3, h4⟩ :=
      PromptForCommit_chain fuel reader c h
    have e0 := (promptForType_sound _ _ _ _ h0).2
    have e1 := promptForTitle_rest _ _ _ _ h1
    rw [readString_snd, e0, List.drop_drop] at e1
    have e1b : r1 = afterTitle reader := e1
    obtain ⟨ed, er2⟩ := readMultilineInput_sound _ _ _ _ h2
    obtain ⟨eb, _⟩ := readMultilineInput_sound _ _ _ _ h3
    rw [h4, mergeBody_eq, ed, eb, er2, e1b]

/-- C9, at description `why` and body `how`: both merges give `why`, a blank
line, `how`. -/
theorem merge_paths_agree_witness :
    (addDescription "why" ⟨"feat", "", "t", "how", false, ""⟩).Body = mergeBody "why" "how" :=
  merge_paths_agree.1 "why" "how" ⟨"feat", "", "t", "how", false, ""⟩ rfl

/-- C10 fails at the empty input: with every read returning the empty string,
`PromptForCommit` returns for no amount of fuel. -/
theorem PromptForCommit_eof_never_returns :
    ¬ ∃ (fuel : Nat) (c : CommitMessage), PromptForCommit fuel [] = some c := by
  rintro ⟨fuel, c, h⟩
  have := (PromptForCommit_sound fuel [] c h).1
  revert this
  decide

/-- C10 as amended: on every finite input `readMultilineInput` returns within
one iteration more than there are lines; `PromptForCommit` returns within
that many iterations of each loop when some line is accepted by
`promptForType` and some line after the one following it is not blank, and
returns for no amount of fuel otherwise. -/
theorem PromptForCommit_termination (reader : Reader) :
    (∃ text r, readMultilineInput (reader.length + 1) reader = some (text, r)) ∧
    (hasTypeAndTitle reader = true →
      ∃ c, PromptForCommit (reader.length + 1) reader = some c) ∧
    (hasTypeAndTitle reader = false → ∀ fuel, PromptForCommit fuel reader = none) := by
  refine ⟨?_, ?_, ?_⟩
  · obtain ⟨text, r, h, _⟩ := readMultilineInput_total (reader.length + 1) reader (by omega)
    exact ⟨text, r, h⟩
  · intro h
    exact PromptForCommit_total _ reader (by omega) h
  · intro h fuel
    cases hp : PromptForCommit fuel reader with
    | none => rfl
    | some c =>
      have := (PromptForCommit_sound fuel reader c hp).1
      rw [h] at this
      simp at this

/-- C10 as amended, at the lines `feat`, `api`, `add x`: a type and a title
are present and `PromptForCommit` returns with fuel 4. -/
theorem PromptForCommit_termination_witness :
    ∃ c, PromptForCommit 4 ["feat\n", "api\n", "add x\n"] = some c :=
  (PromptForCommit_termination ["feat\n", "api\n", "add x\n"]).2.1 (by decide)

end ConvCommit
